import Mathlib

/-!
Verification of the SwiftMind chat application (TypeScript sources) via a
shallow embedding in Lean.  Each section embeds one part of the source:

* `Js` — computable models of the JavaScript string primitives the code
  uses (`toLowerCase`, `trim`, `split`, `startsWith`, `replace(/…/g)`,
  `slice`), defined by structural recursion over the character list of a
  `String` so that every definition evaluates by `rfl`/`decide`.
* `UserStore` — `src/services/userService.ts` (login, switchAccount).
* `Gemini` — `src/services/geminiService.ts` (generateChatTitle,
  addWavHeader).
* `Formatter` — `src/components/ChatMessage.tsx` (renderTable, formatText).
* `SessionMgr` — the session-management handlers of the App component
  (createNewSession, switchSession, handleDeleteSession, handleClearAll,
  handleRenameSession) in `src/unnamed/part_001`.
* `MsgOps` — the message-list mutations performed by `handleSendMessage`
  and `handleConvertAction` in `src/unnamed/part_001`.
* `Converter` — the per-file conversion loop of `handleConvertAction`.

JavaScript strings are modelled as Lean `String`s (`slice`/`charCodeAt`
index UTF-16 units; all inputs relevant to the claims are ASCII, where the
two notions coincide).  Network calls are modelled as oracle arguments of
type `Except Unit α`: `.ok` is a resolved promise, `.error` a rejection of
any kind (network, auth, non-OK response).  `localStorage` is modelled as
an explicit store state threaded through the operations.
-/

namespace Js

/-- `String.prototype.toLowerCase` (character-wise lowering). -/
def jsToLower (s : String) : String :=
  String.mk (s.data.map Char.toLower)

/-- `String.prototype.trim`: strip whitespace from both ends. -/
def jsTrim (s : String) : String :=
  String.mk (((s.data.dropWhile Char.isWhitespace).reverse.dropWhile
    Char.isWhitespace).reverse)

/-- `String.prototype.split(c)` for a single-character separator. -/
def splitOnCharAux (c : Char) : List Char → List Char → List (List Char)
  | [], acc => [acc.reverse]
  | x :: xs, acc =>
      if x = c then acc.reverse :: splitOnCharAux c xs []
      else splitOnCharAux c xs (x :: acc)

/-- `String.prototype.split(c)` for a single-character separator. -/
def jsSplitChar (c : Char) (s : String) : List String :=
  (splitOnCharAux c s.data []).map String.mk

/-- `String.prototype.startsWith(pat)`. -/
def jsStartsWith (pat s : String) : Bool :=
  pat.data.isPrefixOf s.data

/-- `String.prototype.endsWith(pat)`. -/
def jsEndsWith (pat s : String) : Bool :=
  pat.data.isSuffixOf s.data

/-- `String.prototype.includes(c)` for a single character. -/
def jsIncludesChar (c : Char) (s : String) : Bool :=
  s.data.contains c

/-- `String.prototype.slice(0, n)`: the first `n` code units. -/
def jsSliceTo (s : String) (n : Nat) : String :=
  String.mk (s.data.take n)

/-- Replace every occurrence of the non-empty pattern `pat` in the tail of
the list, fuelled by the list length (each step consumes at least one
character, so `s.length` fuel is always enough). -/
def replaceAllFuel (pat repl : List Char) : Nat → List Char → List Char
  | _, [] => []
  | 0, l => l
  | fuel + 1, x :: xs =>
      if !pat.isEmpty && pat.isPrefixOf (x :: xs) then
        repl ++ replaceAllFuel pat repl fuel ((x :: xs).drop pat.length)
      else x :: replaceAllFuel pat repl fuel xs

/-- `String.prototype.replace(/pat/g, repl)` for a literal pattern. -/
def jsReplaceAll (pat repl s : String) : String :=
  String.mk (replaceAllFuel pat.data repl.data s.data.length s.data)

end Js

namespace UserStore

open Js

/-- `UserProfile` from `src/types.ts` (id, name, email, avatar). -/
structure UserProfileM where
  id : String
  name : String
  email : String
  avatar : String
  deriving DecidableEq, Repr

/-- The localStorage keys used by `userService.ts`: the user registry
(`swiftmind_users`) and the current-user pointer
(`swiftmind_current_user_id`). -/
structure StoreState where
  users : List UserProfileM
  currentUserId : Option String
  deriving DecidableEq, Repr

/-- The avatar URL built in `login` for a newly registered user.
`encodeURIComponent` is modelled as the identity (claim-irrelevant; all
concrete inputs here are plain ASCII names). -/
def avatarFor (name : String) : String :=
  "https://ui-avatars.com/api/?name=" ++ name ++
    "&background=0ea5e9&color=fff&rounded=true&bold=true"

/-- `login` from `src/services/userService.ts`: find the first user whose
email matches case-insensitively; if none, register a new user (with the
fresh uuid `freshId`) by pushing it at the end of the registry; in both
cases set the current-user pointer to the returned user's id. -/
def login (email name freshId : String) (σ : StoreState) :
    UserProfileM × StoreState :=
  match σ.users.find? (fun u => jsToLower u.email == jsToLower email) with
  | some u => (u, { σ with currentUserId := some u.id })
  | none =>
      let u : UserProfileM :=
        { id := freshId, name := name, email := email, avatar := avatarFor name }
      (u, { users := σ.users ++ [u], currentUserId := some u.id })

/-- `switchAccount` from `src/services/userService.ts`: look the id up in
the registry; on a hit set the current-user pointer and return the user,
otherwise return null and write nothing. -/
def switchAccount (userId : String) (σ : StoreState) :
    Option UserProfileM × StoreState :=
  match σ.users.find? (fun u => u.id == userId) with
  | some u => (some u, { σ with currentUserId := some u.id })
  | none => (none, σ)

/-- Number of registry entries matching an email case-insensitively. -/
def countMatching (users : List UserProfileM) (email : String) : Nat :=
  (users.filter (fun u => jsToLower u.email == jsToLower email)).length

/-- Registry invariant: emails are pairwise distinct case-insensitively.
This holds for every registry the application can produce, because
`login` is the only writer of the registry key and it never pushes an
entry whose email already matches (see `login_preserves_unique`). -/
def EmailsUnique (users : List UserProfileM) : Prop :=
  users.Pairwise (fun u v => jsToLower u.email ≠ jsToLower v.email)

/-- The profile `login` registers when no case-insensitive email match
exists (id is the fresh uuid, email stored as given). -/
def newUser (email name freshId : String) : UserProfileM :=
  { id := freshId, name := name, email := email, avatar := avatarFor name }

end UserStore

namespace Gemini

open Js

/-- JavaScript `||` on strings: the left operand unless it is falsy
(the empty string). -/
def jsOrElse (a b : String) : String :=
  if a = "" then b else a

/-- The backend result consumed by `generateChatTitle`: `.ok t` is a
resolved `generateContent` call whose `response.text` is `t` (an absent
text field is modelled as the empty string, both being falsy in
`response.text?.trim() || ...`), `.error` any rejection. -/
abbrev TitleBackend := Except Unit String

/-- `generateChatTitle` from `src/services/geminiService.ts`: on success
return `response.text.trim() || "New Session"`; on any error (caught by
the single try/catch, so nothing propagates to the caller) return
`message.slice(0, 30) || "New Session"`. -/
def generateChatTitle (message : String) (backend : TitleBackend) : String :=
  match backend with
  | .ok t => jsOrElse (jsTrim t) "New Session"
  | .error _ => jsOrElse (jsSliceTo message 30) "New Session"

/-- Bytes of an ASCII tag as written by `writeString` in `addWavHeader`
(`charCodeAt` of each character). -/
def asciiBytes (s : String) : List Nat :=
  s.data.map Char.toNat

/-- The two bytes written by `DataView.setUint16(_, v, true)`
(little-endian). -/
def u16le (v : Nat) : List Nat :=
  [v % 256, v / 256 % 256]

/-- The four bytes written by `DataView.setUint32(_, v, true)`
(little-endian; the value is taken modulo 2^32 as in JavaScript). -/
def u32le (v : Nat) : List Nat :=
  [v % 256, v / 256 % 256, v / 65536 % 256, v / 16777216 % 256]

/-- `addWavHeader` from `src/services/geminiService.ts`.  The source
performs `DataView` writes at offsets 0,4,8,12,16,20,22,24,28,32,34,36,40
which tile the 44-byte header exactly (sizes 4,4,4,4,4,2,2,4,4,2,2,4,4),
then copies the samples at offset 44; the embedding assembles the same
bytes by concatenation in offset order. -/
def addWavHeader (samples : List Nat) (sampleRate numChannels : Nat) :
    List Nat :=
  asciiBytes "RIFF" ++
  u32le (36 + samples.length) ++
  asciiBytes "WAVE" ++
  asciiBytes "fmt " ++
  u32le 16 ++
  u16le 1 ++
  u16le numChannels ++
  u32le sampleRate ++
  u32le (sampleRate * numChannels * 2) ++
  u16le (numChannels * 2) ++
  u16le 16 ++
  asciiBytes "data" ++
  u32le samples.length ++
  samples

/-- Read back a little-endian 16-bit value at a byte offset. -/
def readU16 (l : List Nat) (off : Nat) : Nat :=
  (l.getD off 0) + 256 * (l.getD (off + 1) 0)

/-- Read back a little-endian 32-bit value at a byte offset. -/
def readU32 (l : List Nat) (off : Nat) : Nat :=
  (l.getD off 0) + 256 * (l.getD (off + 1) 0) +
    65536 * (l.getD (off + 2) 0) + 16777216 * (l.getD (off + 3) 0)

end Gemini

namespace Formatter

open Js

/-- The typed display blocks `formatText` in `src/components/ChatMessage.tsx`
produces (React element kinds abstracted to their payloads). -/
inductive Block where
  | table (headers : Option (List String)) (rows : List (List String))
  | spacer
  | heading3 (text : String)
  | heading2 (text : String)
  | boldLine (text : String)
  | horizontalRule
  | bulletItem (text : String)
  | paragraph (text : String)
  deriving DecidableEq, Repr

/-- The per-row cell computation at the top of `renderTable`: split the
row on the pipe character, drop a first or last cell that trims to empty
(the boundary pipes), trim every remaining cell. -/
def splitRow (row : String) : List String :=
  let cells := jsSplitChar '|' row
  (cells.enum.filter (fun ic =>
      !(ic.1 == 0 && jsTrim ic.2 == "") &&
      !(ic.1 == cells.length - 1 && jsTrim ic.2 == ""))).map
    (fun ic => jsTrim ic.2)

/-- The separator-cell test `/^[-:]+$/.test(cell)`: a non-empty cell made
of dashes and colons only. -/
def isSeparatorCell (cell : String) : Bool :=
  !cell.data.isEmpty && cell.data.all (fun c => c == '-' || c == ':')

/-- `renderTable` from `src/components/ChatMessage.tsx`: split all rows,
return nothing for an empty buffer, otherwise locate the first row in
which SOME cell passes the separator test (`findIndex` with `row.some`);
at index 1 row 0 becomes the header and rows 0–1 leave the body, at any
other index only that row is removed, and with no hit all rows are body
with no header. -/
def renderTable (tableLines : List String) : Option Block :=
  let rows := tableLines.map splitRow
  if rows.isEmpty then none
  else
    match rows.findIdx? (fun row => row.any isSeparatorCell) with
    | none => some (.table none rows)
    | some i =>
        if i == 1 then
          some (.table (some (rows.headD [])) (rows.drop 2))
        else
          some (.table none
            ((rows.enum.filter (fun ir => ir.1 ≠ i)).map (fun ir => ir.2)))

/-- The heading-text cleanup `trimmed.replace(/^#+\s+/, '')` for a fixed
hash prefix: the replacement fires only when the hashes are followed by at
least one whitespace character. -/
def stripHashes (hashes s : String) : String :=
  let rest := s.data.drop hashes.data.length
  if jsStartsWith hashes s && !(rest.takeWhile Char.isWhitespace).isEmpty then
    String.mk (rest.dropWhile Char.isWhitespace)
  else s

/-- The non-table branch cascade of `formatText`, in source order: spacer,
h3, h2, short colon-free bold line, horizontal rule, bullet item,
paragraph (the paragraph keeps the untrimmed line, as in the source). -/
def classifyLine (line : String) : Block :=
  let trimmed := jsTrim line
  if trimmed == "" then .spacer
  else if jsStartsWith "###" trimmed then .heading3 (stripHashes "###" trimmed)
  else if jsStartsWith "##" trimmed then .heading2 (stripHashes "##" trimmed)
  else if jsStartsWith "**" trimmed && jsEndsWith "**" trimmed &&
      trimmed.data.length < 60 && !jsIncludesChar ':' trimmed then
    .boldLine (jsReplaceAll "**" "" trimmed)
  else if jsStartsWith "---" trimmed || jsStartsWith "___" trimmed then
    .horizontalRule
  else if jsStartsWith "- " trimmed || jsStartsWith "* " trimmed then
    .bulletItem (String.mk (trimmed.data.drop 2))
  else .paragraph line

/-- Pushing `renderTable`'s result like the source does: a null return
(empty buffer) contributes no element. -/
def flushTable (buffer : List String) : List Block :=
  match renderTable buffer with
  | some b => [b]
  | none => []

/-- The line loop of `formatText`: trimmed lines starting with a pipe are
buffered; any other line first flushes a non-empty buffer, then renders
itself; a buffer still open after the last line is flushed (the source
flushes it inside the loop when the pipe line is the last one, which is
the same elements in the same order). -/
def formatTextGo : List String → List String → List Block
  | [], buffer => if buffer.isEmpty then [] else flushTable buffer
  | line :: rest, buffer =>
      let trimmed := jsTrim line
      if jsStartsWith "|" trimmed then
        formatTextGo rest (buffer ++ [trimmed])
      else
        (if buffer.isEmpty then [] else flushTable buffer) ++
          classifyLine line :: formatTextGo rest []

/-- `formatText` from `src/components/ChatMessage.tsx`: split the content
on newlines and run the line loop with an empty table buffer. -/
def formatText (text : String) : List Block :=
  formatTextGo (jsSplitChar '\n' text) []

/-- Modelled from the claim wording for comparison with the code: a header
separator row in the sense of the specification is a row consisting solely
of dash/colon sequences, that is, EVERY cell passes the separator-cell
test; everything else mirrors `renderTable`. -/
def renderTableEvery (tableLines : List String) : Option Block :=
  let rows := tableLines.map splitRow
  if rows.isEmpty then none
  else
    match rows.findIdx? (fun row => row.all isSeparatorCell) with
    | none => some (.table none rows)
    | some i =>
        if i == 1 then
          some (.table (some (rows.headD [])) (rows.drop 2))
        else
          some (.table none
            ((rows.enum.filter (fun ir => ir.1 ≠ i)).map (fun ir => ir.2)))

end Formatter

namespace SessionMgr

/-- `TaskModule` from `src/types.ts`. -/
inductive ModuleM where
  | general | summarizer | writer | invoice | converter | translator
  | lists | businessCalc | imageGen | videoGen | textToSpeech | imageAnalysis
  deriving DecidableEq, Repr

/-- `Session` from `src/types.ts`, generic over the message payload (the
session handlers never inspect individual messages).  The optional
`isDeleted` flag is a `Bool` (absent = false). -/
structure SessionM (α : Type) where
  id : Nat
  title : String
  msgs : List α
  activeModule : ModuleM
  lastModified : Nat
  isDeleted : Bool
  deriving DecidableEq, Repr

/-- The App component state the session handlers read and write: the
`sessions` array (persisted to the per-user store key on every change),
the active session id, the live message list and the active module. -/
structure AppState (α : Type) where
  sessions : List (SessionM α)
  currentSessionId : Option Nat
  messages : List α
  activeModule : ModuleM
  deriving DecidableEq, Repr

/-- The fresh session object built by `createNewSession`, the session-load
effect and `handleClearAll` (title "New Chat", no messages, General
module). -/
def newSession (α : Type) (newId now : Nat) : SessionM α :=
  { id := newId, title := "New Chat", msgs := [], activeModule := .general,
    lastModified := now, isDeleted := false }

/-- `createNewSession` from `src/unnamed/part_001`: prepend a fresh empty
session, make it active, clear the live message list, reset the module to
General. -/
def createNewSession {α : Type} (newId now : Nat) (σ : AppState α) :
    AppState α :=
  { sessions := newSession α newId now :: σ.sessions,
    currentSessionId := some newId,
    messages := [],
    activeModule := .general }

/-- `switchSession` from `src/unnamed/part_001`: look the id up in the
sessions array; on a hit load that session's message list and module and
make it current; otherwise do nothing. -/
def switchSession {α : Type} (sessionId : Nat) (σ : AppState α) :
    AppState α :=
  match σ.sessions.find? (fun s => s.id == sessionId) with
  | some s => { σ with
      currentSessionId := some s.id
      messages := s.msgs
      activeModule := s.activeModule }
  | none => σ

/-- `handleRenameSession`: update the title of the matching session. -/
def renameSession {α : Type} (sessionId : Nat) (newTitle : String)
    (σ : AppState α) : AppState α :=
  { σ with sessions := σ.sessions.map (fun s =>
      if s.id == sessionId then { s with title := newTitle } else s) }

/-- The `setSessions(prev => prev.map(...))` update of
`handleDeleteSession`: set the `isDeleted` flag of the matching session,
touch nothing else. -/
def flagDeleted {α : Type} (sessionId : Nat) (sessions : List (SessionM α)) :
    List (SessionM α) :=
  sessions.map (fun s =>
    if s.id == sessionId then { s with isDeleted := true } else s)

/-- `handleDeleteSession` from `src/unnamed/part_001`: flag the session as
deleted; when it was the active one, compute the remaining non-deleted
sessions (from the pre-update array, as the source closure does) and
switch to the first one, or create a fresh session when none remains.
`switchSession` in the source also reads the pre-update array; it only
writes `currentSessionId`, `messages` and `activeModule`, which merge with
the flagged sessions array. -/
def deleteSession {α : Type} (sessionId newId now : Nat) (σ : AppState α) :
    AppState α :=
  let flagged : AppState α :=
    { σ with sessions := flagDeleted sessionId σ.sessions }
  if σ.currentSessionId == some sessionId then
    match σ.sessions.filter (fun s => s.id != sessionId && !s.isDeleted) with
    | r :: _ =>
        match σ.sessions.find? (fun s => s.id == r.id) with
        | some s => { flagged with
            currentSessionId := some s.id
            messages := s.msgs
            activeModule := s.activeModule }
        | none => flagged
    | [] => createNewSession newId now flagged
  else flagged

/-- `handleClearAll` from `src/unnamed/part_001`: flag every session as
deleted, then prepend a fresh session, make it active and clear the live
message list (the active module is not touched). -/
def clearAllSessions {α : Type} (newId now : Nat) (σ : AppState α) :
    AppState α :=
  { sessions := newSession α newId now ::
      σ.sessions.map (fun s => { s with isDeleted := true }),
    currentSessionId := some newId,
    messages := [],
    activeModule := σ.activeModule }

/-- The message-sync effect of the App component: when a session is active
and the live message list is non-empty, copy it (with the active module
and a fresh timestamp) into the active session's entry. -/
def syncMessages {α : Type} (now : Nat) (σ : AppState α) : AppState α :=
  match σ.currentSessionId with
  | some cid =>
      if σ.messages.isEmpty then σ
      else { σ with sessions := σ.sessions.map (fun s =>
          if s.id == cid then
            { s with
                msgs := σ.messages
                activeModule := σ.activeModule
                lastModified := now }
          else s) }
  | none => σ

/-- The operations that can touch the per-user session collection from the
App component (message-list edits and module switches included for
completeness: they touch only the `messages`/`activeModule` fields). -/
inductive AppOp (α : Type) where
  | create (newId now : Nat)
  | select (sessionId : Nat)
  | rename (sessionId : Nat) (newTitle : String)
  | delete (sessionId newId now : Nat)
  | clearAll (newId now : Nat)
  | sync (now : Nat)
  | setMessages (msgs : List α)
  | setModule (m : ModuleM)

/-- Apply one App operation. -/
def applyOp {α : Type} : AppOp α → AppState α → AppState α
  | .create newId now => createNewSession newId now
  | .select sessionId => switchSession sessionId
  | .rename sessionId newTitle => renameSession sessionId newTitle
  | .delete sessionId newId now => deleteSession sessionId newId now
  | .clearAll newId now => clearAllSessions newId now
  | .sync now => syncMessages now
  | .setMessages msgs => fun σ => { σ with messages := msgs }
  | .setModule m => fun σ => { σ with activeModule := m }

/-- The session listing handed to the sidebar for selection:
`sessions.filter(s => !s.isDeleted)` in the App render. -/
def sessionListing {α : Type} (σ : AppState α) : List (SessionM α) :=
  σ.sessions.filter (fun s => !s.isDeleted)

end SessionMgr

namespace MsgOps

/-- `Role` from `src/types.ts`. -/
inductive RoleM where
  | user | model | system
  deriving DecidableEq, Repr

/-- The reaction field of a message (like/dislike). -/
inductive Reaction where
  | like | dislike
  deriving DecidableEq, Repr

/-- The `downloadData` payload of a message. -/
structure DownloadData where
  fileName : String
  data : String
  mimeType : String
  deriving DecidableEq, Repr

/-- `Message` from `src/types.ts`, restricted to the fields the
message-list operations read or write (attachments and timestamps are
never consulted by any update). -/
structure Msg where
  id : Nat
  role : RoleM
  content : String
  isStreaming : Bool
  mediaUrl : Option String
  audioUrl : Option String
  reaction : Option Reaction
  feedback : Option String
  downloadData : Option DownloadData
  deriving DecidableEq, Repr

/-- The message-list mutations `handleSendMessage`, `handleConvertAction`
and the reaction/feedback handlers perform via `setMessages`: appends of a
user message (no streaming flag) or of a fresh streaming placeholder, and
id-targeted updates.  Every id-targeted update either preserves
`isStreaming` or clears it; none sets it. -/
inductive MsgOp where
  | appendUser (msgId : Nat) (content : String)
  | appendStreaming (msgId : Nat) (content : String)
  | setContent (msgId : Nat) (content : String)
  | appendChunk (msgId : Nat) (chunk : String)
  | settle (msgId : Nat)
  | settleContent (msgId : Nat) (content : String)
  | settleDownload (msgId : Nat) (content : String) (d : Option DownloadData)
  | settleMedia (msgId : Nat) (content : String) (url : String)
  | setMedia (msgId : Nat) (url : String)
  | setAudio (msgId : Nat) (url : String)
  | setReaction (msgId : Nat) (r : Reaction)
  | setFeedback (msgId : Nat) (text : String)
  deriving DecidableEq, Repr

/-- The `setMessages(prev => prev.map(msg => msg.id === id ? {...} : msg))`
pattern every targeted update uses. -/
def updateMsg (msgId : Nat) (f : Msg → Msg) (msgs : List Msg) : List Msg :=
  msgs.map (fun m => if m.id == msgId then f m else m)

/-- A fresh message as appended by the handlers: user messages carry no
streaming flag, model placeholders stream. -/
def freshMsg (msgId : Nat) (role : RoleM) (content : String)
    (streaming : Bool) : Msg :=
  { id := msgId, role := role, content := content, isStreaming := streaming,
    mediaUrl := none, audioUrl := none, reaction := none, feedback := none,
    downloadData := none }

/-- Apply one message-list operation, as the corresponding `setMessages`
call does. -/
def applyMsgOp : MsgOp → List Msg → List Msg
  | .appendUser msgId c, msgs => msgs ++ [freshMsg msgId .user c false]
  | .appendStreaming msgId c, msgs => msgs ++ [freshMsg msgId .model c true]
  | .setContent msgId c, msgs =>
      updateMsg msgId (fun m => { m with content := c }) msgs
  | .appendChunk msgId c, msgs =>
      updateMsg msgId (fun m => { m with content := m.content ++ c }) msgs
  | .settle msgId, msgs =>
      updateMsg msgId (fun m => { m with isStreaming := false }) msgs
  | .settleContent msgId c, msgs =>
      updateMsg msgId (fun m =>
        { m with content := c, isStreaming := false }) msgs
  | .settleDownload msgId c d, msgs =>
      updateMsg msgId (fun m =>
        { m with content := c, isStreaming := false, downloadData := d }) msgs
  | .settleMedia msgId c url, msgs =>
      updateMsg msgId (fun m =>
        { m with
            content := c
            mediaUrl := some url
            isStreaming := false }) msgs
  | .setMedia msgId url, msgs =>
      updateMsg msgId (fun m => { m with mediaUrl := some url }) msgs
  | .setAudio msgId url, msgs =>
      updateMsg msgId (fun m => { m with audioUrl := some url }) msgs
  | .setReaction msgId r, msgs =>
      updateMsg msgId (fun m => { m with reaction := some r }) msgs
  | .setFeedback msgId t, msgs =>
      updateMsg msgId (fun m => { m with feedback := some t }) msgs

/-- Apply a sequence of operations, oldest first. -/
def applyMsgOps : List MsgOp → List Msg → List Msg
  | [], msgs => msgs
  | op :: ops, msgs => applyMsgOps ops (applyMsgOp op msgs)

/-- The freshness condition one operation needs: an append must use an id
no current message carries. -/
def freshForOp (msgs : List Msg) : MsgOp → Bool
  | .appendUser msgId _ => msgs.all (fun m => m.id != msgId)
  | .appendStreaming msgId _ => msgs.all (fun m => m.id != msgId)
  | _ => true

/-- Uuid freshness of a trace: every appended message id is new at the
moment it is appended (uuid v4 collisions are assumed away, as the source
does). -/
def FreshOps : List Msg → List MsgOp → Bool
  | _, [] => true
  | msgs, op :: ops => freshForOp msgs op && FreshOps (applyMsgOp op msgs) ops

/-- Every message carrying this id has settled (its streaming flag is
clear). -/
def settledAt (msgs : List Msg) (msgId : Nat) : Prop :=
  ∀ m ∈ msgs, m.id = msgId → m.isStreaming = false

end MsgOps

namespace Converter

open Js

/-- The four converter-bar target formats of `handleConvertAction`. -/
inductive TargetFormat where
  | pdf | excel | word | ppt
  deriving DecidableEq, Repr

/-- One entry of `selectedFiles` (name, dataURL, MIME type). -/
structure ConvFile where
  name : String
  data : String
  type : String
  deriving DecidableEq, Repr

/-- The resolved value of `convertWithILovePDF` (dataURL, output filename,
MIME type). -/
structure ConvResult where
  data : String
  filename : String
  mimeType : String
  deriving DecidableEq, Repr

/-- A message's `downloadData` payload. -/
structure DownloadPayload where
  fileName : String
  data : String
  mimeType : String
  deriving DecidableEq, Repr

/-- The per-file result message of the conversion loop (the fields the
loop writes). -/
structure ConvMsg where
  id : Nat
  content : String
  isStreaming : Bool
  downloadData : Option DownloadPayload
  deriving DecidableEq, Repr

/-- The backend calls the loop can issue for a file: the iLovePDF
four-step flow, or the generic Gemini streaming fallback. -/
inductive ConvCall where
  | ilovepdf (file : ConvFile)
  | fallback (file : ConvFile)
  deriving DecidableEq, Repr

/-- The `toolMap` record of `handleConvertAction` (every target format has
a tool, so the `if (tool)` guard always passes). -/
def toolMap : TargetFormat → Option String
  | .excel => some "pdfexcel"
  | .word => some "pdfword"
  | .pdf => some "officepdf"
  | .ppt => some "pdfpowerpoint"

/-- `file.name.replace(/\.[^/.]+$/, "")`: strip the last extension — a
final dot followed by one or more characters none of which is a dot or a
slash. -/
def stripLastExt (name : String) : String :=
  let rev := name.data.reverse
  let ext := rev.takeWhile (fun c => c != '.' && c != '/')
  match rev.drop ext.length with
  | '.' :: rem => if ext.isEmpty then name else String.mk rem.reverse
  | _ => name

/-- The code-fence cleanup applied to the gathered fallback text:
`text.replace(/TAG/g, '').replace(/```/g, '').trim()`. -/
def cleanFences (tag text : String) : String :=
  jsTrim (jsReplaceAll "```" "" (jsReplaceAll tag "" text))

/-- The `downloadData` the fallback branch attaches on success, per target
format; for PPT the source leaves `downloadData` undefined. -/
def fallbackDownload (fmt : TargetFormat) (file : ConvFile)
    (gatheredText : String) : Option DownloadPayload :=
  match fmt with
  | .excel => some
      { fileName := stripLastExt file.name ++ ".csv",
        data := cleanFences "```csv" gatheredText, mimeType := "text/csv" }
  | .word => some
      { fileName := stripLastExt file.name ++ ".md",
        data := cleanFences "```markdown" gatheredText,
        mimeType := "text/markdown" }
  | .pdf => some
      { fileName := stripLastExt file.name ++ ".pdf",
        data := cleanFences "```html" gatheredText, mimeType := "text/html" }
  | .ppt => none

/-- The `setMessages(prev => prev.map(msg => msg.id === aiMsgId ? … : msg))`
pattern of the loop. -/
def updateConvMsg (msgId : Nat) (f : ConvMsg → ConvMsg)
    (msgs : List ConvMsg) : List ConvMsg :=
  msgs.map (fun m => if m.id == msgId then f m else m)

/-- The fallback branch for one file (step 2 of the loop): announce the AI
conversion, run the generic streaming call, then settle the message with
the format's download payload on success or a failure text on error. -/
def fallbackStep (fmt : TargetFormat)
    (gemini : ConvFile → Except Unit String) (file : ConvFile)
    (aiMsgId : Nat) (msgs : List ConvMsg) : List ConvMsg × List ConvCall :=
  let msgs1 := updateConvMsg aiMsgId
    (fun m => { m with
      content := "Converting " ++ file.name ++ " with AI..." }) msgs
  match gemini file with
  | .ok text =>
      (updateConvMsg aiMsgId (fun m => { m with
          content := "Converted " ++ file.name ++ "."
          isStreaming := false
          downloadData := fallbackDownload fmt file text }) msgs1,
       [ConvCall.fallback file])
  | .error _ =>
      (updateConvMsg aiMsgId (fun m => { m with
          content := "Failed to convert " ++ file.name ++ "."
          isStreaming := false }) msgs1,
       [ConvCall.fallback file])

/-- One iteration of the `for (const file of selectedFiles)` loop of
`handleConvertAction`: append a fresh streaming "Processing" message;
when a public key is configured and the format has a tool, attempt
`convertWithILovePDF` first and on success settle the message with the
service's download payload (`continue`); on failure, or without a key,
run the generic fallback. -/
def processFile (fmt : TargetFormat) (pub : String)
    (iLove : ConvFile → Except Unit ConvResult)
    (gemini : ConvFile → Except Unit String) (file : ConvFile)
    (aiMsgId : Nat) (msgs : List ConvMsg) : List ConvMsg × List ConvCall :=
  let msgs0 := msgs ++
    [{ id := aiMsgId,
       content := "Processing " ++ file.name ++ "...",
       isStreaming := true, downloadData := none }]
  if pub != "" && (toolMap fmt).isSome then
    let msgs1 := updateConvMsg aiMsgId
      (fun m => { m with
        content := "Converting " ++ file.name ++ " with iLovePDF..." }) msgs0
    match iLove file with
    | .ok r =>
        (updateConvMsg aiMsgId (fun m => { m with
            content := "Successfully converted " ++ file.name ++ " to "
              ++ r.filename ++ "."
            isStreaming := false
            downloadData := some
              { fileName := r.filename, data := r.data,
                mimeType := r.mimeType } }) msgs1,
         [ConvCall.ilovepdf file])
    | .error _ =>
        let step := fallbackStep fmt gemini file aiMsgId msgs1
        (step.1, ConvCall.ilovepdf file :: step.2)
  else
    fallbackStep fmt gemini file aiMsgId msgs0

/-- The whole file loop, sequential and per-file: message ids come from a
counter standing in for uuid v4. -/
def convertFiles (fmt : TargetFormat) (pub : String)
    (iLove : ConvFile → Except Unit ConvResult)
    (gemini : ConvFile → Except Unit String) :
    List ConvFile → Nat → List ConvMsg → List ConvMsg × List ConvCall
  | [], _, msgs => (msgs, [])
  | file :: rest, ctr, msgs =>
      let step := processFile fmt pub iLove gemini file ctr msgs
      let next := convertFiles fmt pub iLove gemini rest (ctr + 1) step.1
      (next.1, step.2 ++ next.2)

/-- The settled message the loop leaves for one file, assembled from the
branches of `processFile` (proved to be the loop's result in
`processFile_eq`). -/
def finalMsg (fmt : TargetFormat) (pub : String)
    (iLove : ConvFile → Except Unit ConvResult)
    (gemini : ConvFile → Except Unit String) (file : ConvFile)
    (aiMsgId : Nat) : ConvMsg :=
  if pub != "" && (toolMap fmt).isSome then
    match iLove file with
    | .ok r =>
        { id := aiMsgId,
          content := "Successfully converted " ++ file.name ++ " to "
            ++ r.filename ++ ".",
          isStreaming := false,
          downloadData := some
            { fileName := r.filename, data := r.data,
              mimeType := r.mimeType } }
    | .error _ =>
        match gemini file with
        | .ok text =>
            { id := aiMsgId, content := "Converted " ++ file.name ++ ".",
              isStreaming := false,
              downloadData := fallbackDownload fmt file text }
        | .error _ =>
            { id := aiMsgId,
              content := "Failed to convert " ++ file.name ++ ".",
              isStreaming := false, downloadData := none }
  else
    match gemini file with
    | .ok text =>
        { id := aiMsgId, content := "Converted " ++ file.name ++ ".",
          isStreaming := false, downloadData := fallbackDownload fmt file text }
    | .error _ =>
        { id := aiMsgId, content := "Failed to convert " ++ file.name ++ ".",
          isStreaming := false, downloadData := none }

/-- The final messages of the loop over a file list, ids counting up. -/
def finalMsgs (fmt : TargetFormat) (pub : String)
    (iLove : ConvFile → Except Unit ConvResult)
    (gemini : ConvFile → Except Unit String) :
    List ConvFile → Nat → List ConvMsg
  | [], _ => []
  | file :: rest, ctr =>
      finalMsg fmt pub iLove gemini file ctr ::
        finalMsgs fmt pub iLove gemini rest (ctr + 1)

/-- The call list one file produces, assembled from the branches of
`processFile` (proved to be the loop's trace in `processFile_eq`). -/
def callsFor (fmt : TargetFormat) (pub : String)
    (iLove : ConvFile → Except Unit ConvResult) (file : ConvFile) :
    List ConvCall :=
  if pub != "" && (toolMap fmt).isSome then
    match iLove file with
    | .ok _ => [ConvCall.ilovepdf file]
    | .error _ => [ConvCall.ilovepdf file, ConvCall.fallback file]
  else [ConvCall.fallback file]

/-- The loop's whole call trace over a file list. -/
def traceFor (fmt : TargetFormat) (pub : String)
    (iLove : ConvFile → Except Unit ConvResult) :
    List ConvFile → List ConvCall
  | [] => []
  | file :: rest => callsFor fmt pub iLove file ++ traceFor fmt pub iLove rest

end Converter

namespace UserStore

open Js

theorem emailsUnique_nil : EmailsUnique [] := List.Pairwise.nil

theorem login_preserves_unique (email name freshId : String) (σ : StoreState)
    (h : EmailsUnique σ.users) :
    EmailsUnique (login email name freshId σ).2.users := by
  unfold login
  cases hf : σ.users.find? (fun u => jsToLower u.email == jsToLower email) with
  | some u => simpa using h
  | none =>
      simp only
      have hnone := List.find?_eq_none.mp hf
      unfold EmailsUnique
      rw [List.pairwise_append]
      refine ⟨h, List.pairwise_singleton _ _, ?_⟩
      intro a ha b hb
      simp only [List.mem_singleton] at hb
      subst hb
      have := hnone a ha
      simp only [beq_iff_eq] at this
      simpa using this

theorem countMatching_le_one (users : List UserProfileM) (e : String)
    (h : EmailsUnique users) : countMatching users e ≤ 1 := by
  unfold countMatching
  have hp := (h.filter (fun u => jsToLower u.email == jsToLower e))
  cases hf : users.filter (fun u => jsToLower u.email == jsToLower e) with
  | nil => simp
  | cons a tl =>
    cases tl with
    | nil => simp
    | cons b tl2 =>
      exfalso
      rw [hf] at hp
      rcases List.pairwise_cons.mp hp with ⟨h1, _⟩
      have hab := h1 b (List.mem_cons_self _ _)
      have ha : a ∈ users.filter (fun u => jsToLower u.email == jsToLower e) := by
        rw [hf]; exact List.mem_cons_self _ _
      have hb : b ∈ users.filter (fun u => jsToLower u.email == jsToLower e) := by
        rw [hf]; exact List.mem_cons_of_mem _ (List.mem_cons_self _ _)
      have ha2 := List.of_mem_filter ha
      have hb2 := List.of_mem_filter hb
      simp only [beq_iff_eq] at ha2 hb2
      exact hab (ha2.trans hb2.symm)

theorem login_eq_found {σ : StoreState} {e n f : String} {u : UserProfileM}
    (hf : σ.users.find? (fun u => jsToLower u.email == jsToLower e) = some u) :
    login e n f σ = (u, { σ with currentUserId := some u.id }) := by
  unfold login
  rw [hf]

theorem login_eq_new {σ : StoreState} {e n f : String}
    (hf : σ.users.find? (fun u => jsToLower u.email == jsToLower e) = none) :
    login e n f σ = (newUser e n f,
      { users := σ.users ++ [newUser e n f], currentUserId := some f }) := by
  unfold login newUser
  rw [hf]

/-- C6: login is find-or-create by case-insensitive email match: for every
registry state the application can produce (emails case-insensitively
unique, the invariant every reachable registry satisfies) and every pair
of emails equal up to letter case, two successive logins return users
with the same id, the second call changes no registry entry, and exactly
one registry entry matches that email afterwards. -/
theorem C6_login_find_or_create (σ : StoreState) (e₁ n₁ f₁ e₂ n₂ f₂ : String)
    (hcase : jsToLower e₁ = jsToLower e₂) (huniq : EmailsUnique σ.users) :
    (login e₂ n₂ f₂ (login e₁ n₁ f₁ σ).2).1.id = (login e₁ n₁ f₁ σ).1.id ∧
    (login e₂ n₂ f₂ (login e₁ n₁ f₁ σ).2).2.users = (login e₁ n₁ f₁ σ).2.users ∧
    countMatching (login e₂ n₂ f₂ (login e₁ n₁ f₁ σ).2).2.users e₁ = 1 := by
  have hpred : (fun u : UserProfileM => jsToLower u.email == jsToLower e₂)
      = (fun u : UserProfileM => jsToLower u.email == jsToLower e₁) := by
    funext u
    rw [← hcase]
  cases hf : σ.users.find? (fun u => jsToLower u.email == jsToLower e₁) with
  | some u =>
      have h1 := login_eq_found (n := n₁) (f := f₁) hf
      have hf2 : ({ σ with currentUserId := some u.id } : StoreState).users.find?
          (fun u => jsToLower u.email == jsToLower e₂) = some u := by
        rw [hpred]
        exact hf
      have h2 := login_eq_found (n := n₂) (f := f₂) hf2
      rw [h1, h2]
      refine ⟨rfl, rfl, ?_⟩
      have hle := countMatching_le_one σ.users e₁ huniq
      have hmem := List.mem_of_find?_eq_some hf
      have hpu := List.find?_some hf
      have hge : 1 ≤ countMatching σ.users e₁ := by
        unfold countMatching
        have hm : u ∈ σ.users.filter (fun u => jsToLower u.email == jsToLower e₁) :=
          List.mem_filter.mpr ⟨hmem, hpu⟩
        exact List.length_pos.mpr (List.ne_nil_of_mem hm)
      show countMatching σ.users e₁ = 1
      omega
  | none =>
      have h1 := login_eq_new (n := n₁) (f := f₁) hf
      have hf2 : (σ.users ++ [newUser e₁ n₁ f₁]).find?
          (fun u => jsToLower u.email == jsToLower e₂) = some (newUser e₁ n₁ f₁) := by
        rw [hpred, List.find?_append, hf]
        simp [newUser]
      have h2 := login_eq_found (n := n₂) (f := f₂)
        (σ := { users := σ.users ++ [newUser e₁ n₁ f₁], currentUserId := some f₁ }) hf2
      rw [h1, h2]
      refine ⟨rfl, rfl, ?_⟩
      unfold countMatching
      rw [List.filter_append]
      have hnil : σ.users.filter (fun u => jsToLower u.email == jsToLower e₁) = [] := by
        refine List.filter_eq_nil_iff.mpr ?_
        intro a ha
        have := List.find?_eq_none.mp hf a ha
        simpa using this
      rw [hnil]
      simp [newUser]

/-- C6 witness: two logins with the same email in different letter case on
the empty registry. -/
theorem C6_witness :
    (login "a@X.com" "Ann" "id2" (login "A@x.com" "Ann" "id1" ⟨[], none⟩).2).1.id
        = (login "A@x.com" "Ann" "id1" ⟨[], none⟩).1.id ∧
    (login "a@X.com" "Ann" "id2" (login "A@x.com" "Ann" "id1" ⟨[], none⟩).2).2.users
        = (login "A@x.com" "Ann" "id1" ⟨[], none⟩).2.users ∧
    countMatching
      (login "a@X.com" "Ann" "id2" (login "A@x.com" "Ann" "id1" ⟨[], none⟩).2).2.users
      "A@x.com" = 1 :=
  C6_login_find_or_create ⟨[], none⟩ "A@x.com" "Ann" "id1" "a@X.com" "Ann" "id2"
    (by decide) List.Pairwise.nil

/-- C9: switchAccount with an id absent from the registry returns null and
changes nothing (neither the current-user pointer nor the registry); with
a present id it returns that user and points the current-user key at it. -/
theorem C9_switchAccount (σ : StoreState) (userId : String) :
    ((∀ u ∈ σ.users, u.id ≠ userId) → switchAccount userId σ = (none, σ)) ∧
    ((∃ u ∈ σ.users, u.id = userId) →
      ∃ u, u ∈ σ.users ∧ u.id = userId ∧
        switchAccount userId σ =
          (some u, { σ with currentUserId := some userId })) := by
  constructor
  · intro hall
    have hf : σ.users.find? (fun u => u.id == userId) = none := by
      refine List.find?_eq_none.mpr ?_
      intro a ha
      simpa using hall a ha
    unfold switchAccount
    rw [hf]
  · rintro ⟨u, hu, hid⟩
    cases hf : σ.users.find? (fun v => v.id == userId) with
    | none =>
        exfalso
        have := List.find?_eq_none.mp hf u hu
        simp [hid] at this
    | some v =>
        have hvmem := List.mem_of_find?_eq_some hf
        have hvid : v.id = userId := by
          have := List.find?_some hf
          simpa using this
        refine ⟨v, hvmem, hvid, ?_⟩
        unfold switchAccount
        rw [hf]
        show (some v, { σ with currentUserId := some v.id }) = _
        rw [hvid]

/-- C9 witness: one absent id and one present id on a two-user registry. -/
theorem C9_witness :
    ((∀ u ∈ (⟨[⟨"u1", "Ann", "a@x.com", "av"⟩], none⟩ : StoreState).users,
        u.id ≠ "zz") →
      switchAccount "zz" ⟨[⟨"u1", "Ann", "a@x.com", "av"⟩], none⟩ =
        (none, ⟨[⟨"u1", "Ann", "a@x.com", "av"⟩], none⟩)) ∧
    ((∃ u ∈ (⟨[⟨"u1", "Ann", "a@x.com", "av"⟩], none⟩ : StoreState).users,
        u.id = "zz") →
      ∃ u, u ∈ (⟨[⟨"u1", "Ann", "a@x.com", "av"⟩], none⟩ : StoreState).users ∧
        u.id = "zz" ∧
        switchAccount "zz" ⟨[⟨"u1", "Ann", "a@x.com", "av"⟩], none⟩ =
          (some u, { (⟨[⟨"u1", "Ann", "a@x.com", "av"⟩], none⟩ : StoreState) with
            currentUserId := some "zz" })) :=
  C9_switchAccount ⟨[⟨"u1", "Ann", "a@x.com", "av"⟩], none⟩ "zz"

end UserStore

namespace Gemini

open Js

theorem asciiBytes_riff_len : (asciiBytes "RIFF").length = 4 := rfl

theorem asciiBytes_wave_len : (asciiBytes "WAVE").length = 4 := rfl

theorem asciiBytes_fmt_len : (asciiBytes "fmt ").length = 4 := rfl

theorem asciiBytes_data_len : (asciiBytes "data").length = 4 := rfl

theorem u32le_len (v : Nat) : (u32le v).length = 4 := rfl

theorem u16le_len (v : Nat) : (u16le v).length = 2 := rfl

/-- C10: generateChatTitle is total over the backend oracle (no error
escapes): on any backend failure it returns the first 30 characters of
the message, or "New Session" for the empty message; on a success whose
trimmed response text is empty it also returns "New Session". -/
theorem C10_generateChatTitle (message t : String) (hmsg : message ≠ "")
    (htrim : jsTrim t = "") :
    generateChatTitle message (.error ()) = jsSliceTo message 30 ∧
    generateChatTitle "" (.error ()) = "New Session" ∧
    generateChatTitle message (.ok t) = "New Session" := by
  refine ⟨?_, rfl, ?_⟩
  · have hne : jsSliceTo message 30 ≠ "" := by
      intro h
      apply hmsg
      have hdata : message.data.take 30 = ([] : List Char) :=
        congrArg String.data h
      rcases List.take_eq_nil_iff.mp hdata with h30 | hnil
      · exact absurd h30 (by decide)
      · exact congrArg String.mk hnil
    unfold generateChatTitle jsOrElse
    rw [if_neg hne]
  · simp [generateChatTitle, jsOrElse, htrim]

/-- C10 witness: a long message and a whitespace-only response text. -/
theorem C10_witness :
    generateChatTitle "Hello there, how do I convert a PDF to Excel today?"
        (.error ()) =
      jsSliceTo "Hello there, how do I convert a PDF to Excel today?" 30 ∧
    generateChatTitle "" (.error ()) = "New Session" ∧
    generateChatTitle "Hello there, how do I convert a PDF to Excel today?"
        (.ok "   ") = "New Session" :=
  C10_generateChatTitle "Hello there, how do I convert a PDF to Excel today?"
    "   " (by decide) rfl

/-- The byte list produced by `addWavHeader` at the arguments used by
`generateSpeech` (sample rate 24000, one channel), written out
element-wise. -/
theorem addWavHeader_explicit (samples : List Nat) :
    addWavHeader samples 24000 1 =
      82 :: 73 :: 70 :: 70 ::
      ((36 + samples.length) % 256) :: ((36 + samples.length) / 256 % 256) ::
      ((36 + samples.length) / 65536 % 256) ::
      ((36 + samples.length) / 16777216 % 256) ::
      87 :: 65 :: 86 :: 69 ::
      102 :: 109 :: 116 :: 32 ::
      16 :: 0 :: 0 :: 0 ::
      1 :: 0 ::
      1 :: 0 ::
      192 :: 93 :: 0 :: 0 ::
      128 :: 187 :: 0 :: 0 ::
      2 :: 0 ::
      16 :: 0 ::
      100 :: 97 :: 116 :: 97 ::
      (samples.length % 256) :: (samples.length / 256 % 256) ::
      (samples.length / 65536 % 256) :: (samples.length / 16777216 % 256) ::
      samples := by
  unfold addWavHeader
  rw [show asciiBytes "RIFF" = [82, 73, 70, 70] from rfl,
      show asciiBytes "WAVE" = [87, 65, 86, 69] from rfl,
      show asciiBytes "fmt " = [102, 109, 116, 32] from rfl,
      show asciiBytes "data" = [100, 97, 116, 97] from rfl,
      show u32le 16 = [16, 0, 0, 0] from rfl,
      show u16le 1 = [1, 0] from rfl,
      show u32le 24000 = [192, 93, 0, 0] from rfl,
      show u32le (24000 * 1 * 2) = [128, 187, 0, 0] from rfl,
      show u16le (1 * 2) = [2, 0] from rfl,
      show u16le 16 = [16, 0] from rfl]
  simp [u32le, List.cons_append, List.nil_append]

/-- C8: addWavHeader as invoked by generateSpeech (sample rate 24000, one
channel) produces a buffer of exactly 44+n bytes whose header holds the
RIFF/WAVE/fmt/data tags, RIFF chunk size 36+n, PCM format code 1, channel
count 1, sample rate 24000, 16 bits per sample and data chunk length n,
followed by the n sample bytes unchanged.  (The 32-bit size fields are
exact as long as 36+n fits in 32 bits, which every real audio buffer
satisfies.) -/
theorem C8_addWavHeader (samples : List Nat)
    (h : samples.length + 36 < 4294967296) :
    (addWavHeader samples 24000 1).length = 44 + samples.length ∧
    (addWavHeader samples 24000 1).take 4 = asciiBytes "RIFF" ∧
    readU32 (addWavHeader samples 24000 1) 4 = 36 + samples.length ∧
    ((addWavHeader samples 24000 1).drop 8).take 4 = asciiBytes "WAVE" ∧
    ((addWavHeader samples 24000 1).drop 12).take 4 = asciiBytes "fmt " ∧
    readU16 (addWavHeader samples 24000 1) 20 = 1 ∧
    readU16 (addWavHeader samples 24000 1) 22 = 1 ∧
    readU32 (addWavHeader samples 24000 1) 24 = 24000 ∧
    readU16 (addWavHeader samples 24000 1) 34 = 16 ∧
    ((addWavHeader samples 24000 1).drop 36).take 4 = asciiBytes "data" ∧
    readU32 (addWavHeader samples 24000 1) 40 = samples.length ∧
    (addWavHeader samples 24000 1).drop 44 = samples := by
  refine ⟨?_, ?_, ?_, ?_, ?_, ?_, ?_, ?_, ?_, ?_, ?_, ?_⟩
  · rw [addWavHeader_explicit]
    simp only [List.length_cons]
    omega
  · rw [addWavHeader_explicit]
    rfl
  · rw [readU32, addWavHeader_explicit]
    simp only [List.getD]
    simp only [List.get?]
    show (36 + samples.length) % 256 +
        256 * ((36 + samples.length) / 256 % 256) +
        65536 * ((36 + samples.length) / 65536 % 256) +
        16777216 * ((36 + samples.length) / 16777216 % 256) =
        36 + samples.length
    omega
  · rw [addWavHeader_explicit]
    rfl
  · rw [addWavHeader_explicit]
    rfl
  · rw [readU16, addWavHeader_explicit]
    simp [List.getD]
  · rw [readU16, addWavHeader_explicit]
    simp [List.getD]
  · rw [readU32, addWavHeader_explicit]
    simp only [List.getD]
    simp only [List.get?]
    show 192 + 256 * 93 + 65536 * 0 + 16777216 * 0 = 24000
    omega
  · rw [readU16, addWavHeader_explicit]
    simp [List.getD]
  · rw [addWavHeader_explicit]
    rfl
  · rw [readU32, addWavHeader_explicit]
    simp only [List.getD]
    simp only [List.get?]
    show samples.length % 256 +
        256 * (samples.length / 256 % 256) +
        65536 * (samples.length / 65536 % 256) +
        16777216 * (samples.length / 16777216 % 256) =
        samples.length
    omega
  · rw [addWavHeader_explicit]
    rfl

/-- C8 witness: a concrete three-byte sample buffer. -/
theorem C8_witness :
    (addWavHeader [7, 8, 9] 24000 1).length = 44 + [7, 8, 9].length ∧
    (addWavHeader [7, 8, 9] 24000 1).take 4 = asciiBytes "RIFF" ∧
    readU32 (addWavHeader [7, 8, 9] 24000 1) 4 = 36 + [7, 8, 9].length ∧
    ((addWavHeader [7, 8, 9] 24000 1).drop 8).take 4 = asciiBytes "WAVE" ∧
    ((addWavHeader [7, 8, 9] 24000 1).drop 12).take 4 = asciiBytes "fmt " ∧
    readU16 (addWavHeader [7, 8, 9] 24000 1) 20 = 1 ∧
    readU16 (addWavHeader [7, 8, 9] 24000 1) 22 = 1 ∧
    readU32 (addWavHeader [7, 8, 9] 24000 1) 24 = 24000 ∧
    readU16 (addWavHeader [7, 8, 9] 24000 1) 34 = 16 ∧
    ((addWavHeader [7, 8, 9] 24000 1).drop 36).take 4 = asciiBytes "data" ∧
    readU32 (addWavHeader [7, 8, 9] 24000 1) 40 = [7, 8, 9].length ∧
    (addWavHeader [7, 8, 9] 24000 1).drop 44 = [7, 8, 9] :=
  C8_addWavHeader [7, 8, 9] (by decide)

end Gemini

namespace Formatter

open Js

/-- C2 counterexample: on the buffer `["|a|---|", "|x|y|"]` the code's
`findIndex` with `row.some(...)` fires on the first row (its second cell
is all dashes even though the first cell is "a"), so the code drops row 0,
while under the claim's every-cell rule no row is a separator and both
rows stay in the body: the rendered tables differ. -/
theorem C2_counterexample :
    renderTable ["|a|---|", "|x|y|"] ≠ renderTableEvery ["|a|---|", "|x|y|"] := by
  decide

/-- C2 (amended): a buffered row is treated as the header separator when
at least one of its cells consists solely of dash/colon characters (not
when every cell does); the first such row is the separator: found
immediately after row 0, row 0 becomes the header and rows 0 and 1 leave
the body; found at any other index, only that row is dropped and all
remaining rows render as body with no header; with no such row all rows
render as body. -/
theorem C2_separator_detection (tableLines : List String)
    (hne : tableLines ≠ []) :
    ((tableLines.map splitRow).findIdx? (fun row => row.any isSeparatorCell)
        = none →
      renderTable tableLines =
        some (.table none (tableLines.map splitRow))) ∧
    ((tableLines.map splitRow).findIdx? (fun row => row.any isSeparatorCell)
        = some 1 →
      renderTable tableLines =
        some (.table (some ((tableLines.map splitRow).headD []))
          ((tableLines.map splitRow).drop 2))) ∧
    (∀ i, i ≠ 1 →
      (tableLines.map splitRow).findIdx? (fun row => row.any isSeparatorCell)
        = some i →
      renderTable tableLines =
        some (.table none
          (((tableLines.map splitRow).enum.filter (fun ir => ir.1 ≠ i)).map
            (fun ir => ir.2)))) := by
  have hrows : (tableLines.map splitRow).isEmpty = false := by
    cases tableLines with
    | nil => exact absurd rfl hne
    | cons a l => rfl
  refine ⟨?_, ?_, ?_⟩
  · intro hf
    simp [renderTable, hrows, hf]
  · intro hf
    simp [renderTable, hrows, hf]
  · intro i hi hf
    have hib : (i == 1) = false := by simpa using hi
    simp [renderTable, hrows, hf, hib]

/-- C2 witness: the separator row of a well-formed table sits at index 1,
so row 0 becomes the header. -/
theorem C2_witness :
    renderTable ["| a | b |", "|---|---|", "| 1 | 2 |"] =
      some (.table
        (some ((["| a | b |", "|---|---|", "| 1 | 2 |"].map splitRow).headD []))
        ((["| a | b |", "|---|---|", "| 1 | 2 |"].map splitRow).drop 2)) :=
  (C2_separator_detection ["| a | b |", "|---|---|", "| 1 | 2 |"]
      (by decide)).2.1 (by decide)

/-- C7: formatting the exact three-line pipe-table input produces exactly
one table block with header ["a","b"] and a single body row ["1","2"]
(cells split on the pipe, boundary empties dropped, cells trimmed). -/
theorem C7_concrete_table :
    formatText "| a | b |\n|---|---|\n| 1 | 2 |" =
      [Block.table (some ["a", "b"]) [["1", "2"]]] := by
  decide

end Formatter

namespace SessionMgr

theorem flagDeleted_preserves_id {α : Type} (sessionId : Nat) (s : SessionM α) :
    (if s.id == sessionId then { s with isDeleted := true } else s).id = s.id := by
  split <;> rfl

theorem mem_flagDeleted_of_mem {α : Type} {sessions : List (SessionM α)}
    {s : SessionM α} (hs : s ∈ sessions) (sessionId : Nat) :
    s ∈ flagDeleted sessionId sessions ∨
    { s with isDeleted := true } ∈ flagDeleted sessionId sessions := by
  unfold flagDeleted
  by_cases hid : s.id == sessionId
  · right
    have hm := List.mem_map_of_mem
      (fun t : SessionM α =>
        if t.id == sessionId then { t with isDeleted := true } else t) hs
    rw [show (fun t : SessionM α =>
        if t.id == sessionId then { t with isDeleted := true } else t) s
        = { s with isDeleted := true } from if_pos hid] at hm
    exact hm
  · left
    have hm := List.mem_map_of_mem
      (fun t : SessionM α =>
        if t.id == sessionId then { t with isDeleted := true } else t) hs
    rw [show (fun t : SessionM α =>
        if t.id == sessionId then { t with isDeleted := true } else t) s
        = s from if_neg hid] at hm
    exact hm

theorem deleteSession_sessions {α : Type} (sessionId newId now : Nat)
    (σ : AppState α) :
    (deleteSession sessionId newId now σ).sessions
        = flagDeleted sessionId σ.sessions ∨
    (deleteSession sessionId newId now σ).sessions
        = newSession α newId now :: flagDeleted sessionId σ.sessions := by
  unfold deleteSession
  by_cases hc : σ.currentSessionId == some sessionId
  · simp only [hc, if_true]
    split
    · split
      · left; rfl
      · left; rfl
    · right; rfl
  · simp only [hc, if_false]
    left; rfl

/-- C3: for every application state, flagged sessions never appear in the
listing the sidebar receives; every App operation keeps every session id
in the sessions array; and delete and clear-all at most set the isDeleted
flag of an entry, never removing or otherwise altering it, so deleted
sessions remain retrievable from the persisted array. -/
theorem C3_soft_delete_retention {α : Type} (σ : AppState α) :
    (∀ s ∈ sessionListing σ, s.isDeleted = false) ∧
    (∀ (op : AppOp α) (s : SessionM α), s ∈ σ.sessions →
      ∃ t ∈ (applyOp op σ).sessions, t.id = s.id) ∧
    (∀ (sessionId newId now : Nat) (s : SessionM α), s ∈ σ.sessions →
      s ∈ (deleteSession sessionId newId now σ).sessions ∨
      { s with isDeleted := true } ∈
        (deleteSession sessionId newId now σ).sessions) ∧
    (∀ (newId now : Nat) (s : SessionM α), s ∈ σ.sessions →
      { s with isDeleted := true } ∈ (clearAllSessions newId now σ).sessions) := by
  refine ⟨?_, ?_, ?_, ?_⟩
  · intro s hs
    have := List.of_mem_filter hs
    simpa using this
  · intro op s hs
    cases op with
    | create newId now =>
        exact ⟨s, List.mem_cons_of_mem _ hs, rfl⟩
    | select sessionId =>
        show ∃ t ∈ (switchSession sessionId σ).sessions, t.id = s.id
        unfold switchSession
        split
        · exact ⟨s, hs, rfl⟩
        · exact ⟨s, hs, rfl⟩
    | rename sessionId newTitle =>
        show ∃ t ∈ (renameSession sessionId newTitle σ).sessions, t.id = s.id
        refine ⟨_, List.mem_map_of_mem
          (fun t : SessionM α =>
            if t.id == sessionId then { t with title := newTitle } else t) hs, ?_⟩
        split <;> rfl
    | delete sessionId newId now =>
        show ∃ t ∈ (deleteSession sessionId newId now σ).sessions, t.id = s.id
        rcases deleteSession_sessions sessionId newId now σ with h | h <;> rw [h]
        · rcases mem_flagDeleted_of_mem hs sessionId with hm | hm
          · exact ⟨s, hm, rfl⟩
          · exact ⟨{ s with isDeleted := true }, hm, rfl⟩
        · rcases mem_flagDeleted_of_mem hs sessionId with hm | hm
          · exact ⟨s, List.mem_cons_of_mem _ hm, rfl⟩
          · exact ⟨{ s with isDeleted := true }, List.mem_cons_of_mem _ hm, rfl⟩
    | clearAll newId now =>
        exact ⟨{ s with isDeleted := true },
          List.mem_cons_of_mem _ (List.mem_map_of_mem _ hs), rfl⟩
    | sync now =>
        show ∃ t ∈ (syncMessages now σ).sessions, t.id = s.id
        unfold syncMessages
        split
        · split
          · exact ⟨s, hs, rfl⟩
          · refine ⟨_, List.mem_map_of_mem _ hs, ?_⟩
            split <;> rfl
        · exact ⟨s, hs, rfl⟩
    | setMessages msgs => exact ⟨s, hs, rfl⟩
    | setModule m => exact ⟨s, hs, rfl⟩
  · intro sessionId newId now s hs
    rcases deleteSession_sessions sessionId newId now σ with h | h <;> rw [h]
    · exact mem_flagDeleted_of_mem hs sessionId
    · rcases mem_flagDeleted_of_mem hs sessionId with hm | hm
      · exact Or.inl (List.mem_cons_of_mem _ hm)
      · exact Or.inr (List.mem_cons_of_mem _ hm)
  · intro newId now s hs
    exact List.mem_cons_of_mem _ (List.mem_map_of_mem _ hs)

theorem find?_id_eq {α : Type} {sessions : List (SessionM α)} {r : SessionM α}
    (hnodup : (sessions.map (fun s => s.id)).Nodup) (hr : r ∈ sessions) :
    sessions.find? (fun s => s.id == r.id) = some r := by
  induction sessions with
  | nil => cases hr
  | cons a l ih =>
      rw [List.map_cons, List.nodup_cons] at hnodup
      rcases List.mem_cons.mp hr with h | h
      · subst h
        exact List.find?_cons_of_pos _ (by simp)
      · have hne2 : (a.id == r.id) = false := by
          simp only [beq_eq_false_iff_ne, ne_eq]
          intro heq2
          apply hnodup.1
          rw [heq2]
          exact List.mem_map_of_mem _ h
        rw [List.find?_cons, hne2]
        simpa using ih hnodup.2 h

/-- C5: handleDeleteSession's selection behaviour — deleting the active
session while other non-deleted sessions remain makes the first remaining
one active and loads its message list and module; deleting the last
non-deleted session creates a fresh empty session (General module) that
becomes active; deleting a non-active session changes nothing but that
session's isDeleted flag.  Session ids are assumed pairwise distinct, the
invariant fresh uuids provide. -/
theorem C5_delete_selection {α : Type} (σ : AppState α)
    (sessionId newId now : Nat)
    (hnodup : (σ.sessions.map (fun s => s.id)).Nodup) :
    (∀ r rest, σ.currentSessionId = some sessionId →
      σ.sessions.filter (fun s => s.id != sessionId && !s.isDeleted)
          = r :: rest →
      deleteSession sessionId newId now σ =
        { sessions := flagDeleted sessionId σ.sessions,
          currentSessionId := some r.id,
          messages := r.msgs,
          activeModule := r.activeModule }) ∧
    (σ.currentSessionId = some sessionId →
      σ.sessions.filter (fun s => s.id != sessionId && !s.isDeleted) = [] →
      deleteSession sessionId newId now σ =
        { sessions := newSession α newId now :: flagDeleted sessionId σ.sessions,
          currentSessionId := some newId,
          messages := [],
          activeModule := ModuleM.general }) ∧
    (σ.currentSessionId ≠ some sessionId →
      deleteSession sessionId newId now σ =
        { σ with sessions := flagDeleted sessionId σ.sessions }) := by
  refine ⟨?_, ?_, ?_⟩
  · intro r rest hcur hfil
    have hrmem : r ∈ σ.sessions :=
      List.mem_of_mem_filter (hfil ▸ List.mem_cons_self r rest)
    have hfind := find?_id_eq hnodup hrmem
    simp only [deleteSession, hcur, hfil, hfind, beq_self_eq_true, if_true]
  · intro hcur hfil
    simp only [deleteSession, createNewSession, hcur, hfil, beq_self_eq_true,
      if_true]
  · intro hcur
    have hc2 : (σ.currentSessionId == some sessionId) = false := by
      simpa using hcur
    simp [deleteSession, hc2]

/-- C5 witness: a two-session state; deleting the active session 1
switches to session 2 and loads its messages and module; afterwards, on a
state whose only non-deleted session is the active one, deleting it
creates the fresh session; deleting a non-active session only flags it. -/
theorem C5_witness :
    (deleteSession 1 99 5
        (⟨[⟨1, "one", [10], ModuleM.general, 0, false⟩,
           ⟨2, "two", [20], ModuleM.converter, 0, false⟩], some 1, [10],
          ModuleM.general⟩ : AppState Nat) =
      { sessions := flagDeleted 1
          [⟨1, "one", [10], ModuleM.general, 0, false⟩,
           ⟨2, "two", [20], ModuleM.converter, 0, false⟩],
        currentSessionId := some 2,
        messages := [20],
        activeModule := ModuleM.converter }) ∧
    (deleteSession 1 99 5
        (⟨[⟨1, "one", [10], ModuleM.general, 0, false⟩], some 1, [10],
          ModuleM.general⟩ : AppState Nat) =
      { sessions := newSession Nat 99 5 ::
          flagDeleted 1 [⟨1, "one", [10], ModuleM.general, 0, false⟩],
        currentSessionId := some 99,
        messages := [],
        activeModule := ModuleM.general }) ∧
    (deleteSession 2 99 5
        (⟨[⟨1, "one", [10], ModuleM.general, 0, false⟩,
           ⟨2, "two", [20], ModuleM.converter, 0, false⟩], some 1, [10],
          ModuleM.general⟩ : AppState Nat) =
      { (⟨[⟨1, "one", [10], ModuleM.general, 0, false⟩,
           ⟨2, "two", [20], ModuleM.converter, 0, false⟩], some 1, [10],
          ModuleM.general⟩ : AppState Nat) with
        sessions := flagDeleted 2
          [⟨1, "one", [10], ModuleM.general, 0, false⟩,
           ⟨2, "two", [20], ModuleM.converter, 0, false⟩] }) :=
  ⟨(C5_delete_selection
      (⟨[⟨1, "one", [10], ModuleM.general, 0, false⟩,
         ⟨2, "two", [20], ModuleM.converter, 0, false⟩], some 1, [10],
        ModuleM.general⟩ : AppState Nat) 1 99 5 (by decide)).1
      ⟨2, "two", [20], ModuleM.converter, 0, false⟩ [] rfl (by decide),
   (C5_delete_selection
      (⟨[⟨1, "one", [10], ModuleM.general, 0, false⟩], some 1, [10],
        ModuleM.general⟩ : AppState Nat) 1 99 5 (by decide)).2.1
      rfl (by decide),
   (C5_delete_selection
      (⟨[⟨1, "one", [10], ModuleM.general, 0, false⟩,
         ⟨2, "two", [20], ModuleM.converter, 0, false⟩], some 1, [10],
        ModuleM.general⟩ : AppState Nat) 2 99 5 (by decide)).2.2
      (by decide)⟩

/-- C3 witness: on a concrete two-session state, the non-deleted session
appears in the listing with its flag clear, and after deleting session 1
the session survives in the array (at most with its flag set). -/
theorem C3_witness :
    (⟨2, "two", [20], ModuleM.converter, 0, false⟩ : SessionM Nat).isDeleted
        = false ∧
    ((⟨1, "one", [10], ModuleM.general, 0, false⟩ : SessionM Nat) ∈
        (deleteSession 1 99 5
          (⟨[⟨1, "one", [10], ModuleM.general, 0, false⟩,
             ⟨2, "two", [20], ModuleM.converter, 0, false⟩], some 1, [10],
            ModuleM.general⟩ : AppState Nat)).sessions ∨
      { (⟨1, "one", [10], ModuleM.general, 0, false⟩ : SessionM Nat) with
          isDeleted := true } ∈
        (deleteSession 1 99 5
          (⟨[⟨1, "one", [10], ModuleM.general, 0, false⟩,
             ⟨2, "two", [20], ModuleM.converter, 0, false⟩], some 1, [10],
            ModuleM.general⟩ : AppState Nat)).sessions) :=
  ⟨(C3_soft_delete_retention
      (⟨[⟨1, "one", [10], ModuleM.general, 0, false⟩,
         ⟨2, "two", [20], ModuleM.converter, 0, false⟩], some 1, [10],
        ModuleM.general⟩ : AppState Nat)).1
      ⟨2, "two", [20], ModuleM.converter, 0, false⟩ (by decide),
   (C3_soft_delete_retention
      (⟨[⟨1, "one", [10], ModuleM.general, 0, false⟩,
         ⟨2, "two", [20], ModuleM.converter, 0, false⟩], some 1, [10],
        ModuleM.general⟩ : AppState Nat)).2.2.1 1 99 5
      ⟨1, "one", [10], ModuleM.general, 0, false⟩ (by decide)⟩

end SessionMgr

namespace MsgOps

theorem present_updateMsg (msgId opId : Nat) (f : Msg → Msg)
    (msgs : List Msg) (hid : ∀ m, (f m).id = m.id)
    (h : ∃ m ∈ msgs, m.id = msgId) :
    ∃ m ∈ updateMsg opId f msgs, m.id = msgId := by
  rcases h with ⟨m, hm, hmid⟩
  refine ⟨_, List.mem_map_of_mem
    (fun t => if t.id == opId then f t else t) hm, ?_⟩
  by_cases hc : m.id == opId
  · rw [if_pos hc, hid m]
    exact hmid
  · rw [if_neg hc]
    exact hmid

theorem updateMsg_keeps_settled (msgId opId : Nat) (f : Msg → Msg)
    (msgs : List Msg) (hid : ∀ m, (f m).id = m.id)
    (hstream : ∀ m, (f m).isStreaming = false ∨
      (f m).isStreaming = m.isStreaming)
    (hsettled : settledAt msgs msgId) :
    settledAt (updateMsg opId f msgs) msgId := by
  intro m hm hmid
  rcases List.mem_map.mp hm with ⟨m₀, hm₀, heq⟩
  subst heq
  by_cases hc : m₀.id == opId
  · rw [if_pos hc] at hmid ⊢
    have hm₀id : m₀.id = msgId := by rw [← hid m₀]; exact hmid
    rcases hstream m₀ with h | h
    · exact h
    · rw [h]
      exact hsettled m₀ hm₀ hm₀id
  · rw [if_neg hc] at hmid ⊢
    exact hsettled m₀ hm₀ hmid

theorem step_preserves (op : MsgOp) (msgs : List Msg) (msgId : Nat)
    (hpresent : ∃ m ∈ msgs, m.id = msgId)
    (hsettled : settledAt msgs msgId)
    (hfresh : freshForOp msgs op = true) :
    (∃ m ∈ applyMsgOp op msgs, m.id = msgId) ∧
    settledAt (applyMsgOp op msgs) msgId := by
  cases op with
  | appendUser i c =>
      constructor
      · rcases hpresent with ⟨m, hm, hmid⟩
        exact ⟨m, List.mem_append_left _ hm, hmid⟩
      · intro m hm hmid
        rcases List.mem_append.mp hm with h | h
        · exact hsettled m h hmid
        · simp only [List.mem_singleton] at h
          subst h
          rfl
  | appendStreaming i c =>
      constructor
      · rcases hpresent with ⟨m, hm, hmid⟩
        exact ⟨m, List.mem_append_left _ hm, hmid⟩
      · intro m hm hmid
        rcases List.mem_append.mp hm with h | h
        · exact hsettled m h hmid
        · simp only [List.mem_singleton] at h
          subst h
          exfalso
          rcases hpresent with ⟨m₀, hm₀, hm₀id⟩
          have hne := List.all_eq_true.mp hfresh m₀ hm₀
          simp only [ne_eq, bne_iff_ne] at hne
          rw [hm₀id] at hne
          exact hne hmid.symm
  | setContent i c =>
      exact ⟨present_updateMsg msgId i _ msgs (fun m => rfl) hpresent,
        updateMsg_keeps_settled msgId i _ msgs (fun m => rfl)
          (fun m => Or.inr rfl) hsettled⟩
  | appendChunk i c =>
      exact ⟨present_updateMsg msgId i _ msgs (fun m => rfl) hpresent,
        updateMsg_keeps_settled msgId i _ msgs (fun m => rfl)
          (fun m => Or.inr rfl) hsettled⟩
  | settle i =>
      exact ⟨present_updateMsg msgId i _ msgs (fun m => rfl) hpresent,
        updateMsg_keeps_settled msgId i _ msgs (fun m => rfl)
          (fun m => Or.inl rfl) hsettled⟩
  | settleContent i c =>
      exact ⟨present_updateMsg msgId i _ msgs (fun m => rfl) hpresent,
        updateMsg_keeps_settled msgId i _ msgs (fun m => rfl)
          (fun m => Or.inl rfl) hsettled⟩
  | settleDownload i c d =>
      exact ⟨present_updateMsg msgId i _ msgs (fun m => rfl) hpresent,
        updateMsg_keeps_settled msgId i _ msgs (fun m => rfl)
          (fun m => Or.inl rfl) hsettled⟩
  | settleMedia i c url =>
      exact ⟨present_updateMsg msgId i _ msgs (fun m => rfl) hpresent,
        updateMsg_keeps_settled msgId i _ msgs (fun m => rfl)
          (fun m => Or.inl rfl) hsettled⟩
  | setMedia i url =>
      exact ⟨present_updateMsg msgId i _ msgs (fun m => rfl) hpresent,
        updateMsg_keeps_settled msgId i _ msgs (fun m => rfl)
          (fun m => Or.inr rfl) hsettled⟩
  | setAudio i url =>
      exact ⟨present_updateMsg msgId i _ msgs (fun m => rfl) hpresent,
        updateMsg_keeps_settled msgId i _ msgs (fun m => rfl)
          (fun m => Or.inr rfl) hsettled⟩
  | setReaction i r =>
      exact ⟨present_updateMsg msgId i _ msgs (fun m => rfl) hpresent,
        updateMsg_keeps_settled msgId i _ msgs (fun m => rfl)
          (fun m => Or.inr rfl) hsettled⟩
  | setFeedback i t =>
      exact ⟨present_updateMsg msgId i _ msgs (fun m => rfl) hpresent,
        updateMsg_keeps_settled msgId i _ msgs (fun m => rfl)
          (fun m => Or.inr rfl) hsettled⟩

/-- C4: once a message's isStreaming flag is clear, no sequence of
subsequent message-list operations of handleSendMessage,
handleConvertAction or the reaction handlers ever sets it again for that
message id (appends use fresh uuids; every targeted update preserves or
clears the flag). -/
theorem C4_streaming_once_settled (msgs : List Msg) (msgId : Nat)
    (ops : List MsgOp)
    (hpresent : ∃ m ∈ msgs, m.id = msgId)
    (hsettled : settledAt msgs msgId)
    (hfresh : FreshOps msgs ops = true) :
    settledAt (applyMsgOps ops msgs) msgId := by
  revert msgs
  induction ops with
  | nil =>
      intro msgs hpresent hsettled hfresh
      exact hsettled
  | cons op ops ih =>
      intro msgs hpresent hsettled hfresh
      rw [FreshOps, Bool.and_eq_true] at hfresh
      rcases hfresh with ⟨h1, h2⟩
      have hstep := step_preserves op msgs msgId hpresent hsettled h1
      exact ih (applyMsgOp op msgs) hstep.1 hstep.2 h2

/-- C4 witness: a settled message with id 1 stays settled across a later
streaming message's full lifecycle and a reaction on message 1 itself. -/
theorem C4_witness :
    settledAt
      (applyMsgOps
        [.appendStreaming 2 "", .appendChunk 2 "Hello", .settle 2,
         .setReaction 1 .like]
        [freshMsg 1 .model "done" false]) 1 :=
  C4_streaming_once_settled [freshMsg 1 .model "done" false] 1
    [.appendStreaming 2 "", .appendChunk 2 "Hello", .settle 2,
     .setReaction 1 .like]
    ⟨freshMsg 1 .model "done" false, by decide, by decide⟩
    (by unfold settledAt; decide) (by decide)

end MsgOps

namespace Converter

open Js

theorem map_id_of_eq {β : Type} (g : β → β) (l : List β)
    (h : ∀ x ∈ l, g x = x) : l.map g = l := by
  induction l with
  | nil => rfl
  | cons a t ih =>
      have ht := ih (fun x hx => h x (List.mem_cons_of_mem _ hx))
      rw [List.map_cons, h a (List.mem_cons_self _ _), ht]

theorem updateConvMsg_append (msgId : Nat) (f : ConvMsg → ConvMsg)
    (msgs : List ConvMsg) (m : ConvMsg)
    (hfresh : ∀ x ∈ msgs, x.id ≠ msgId) (hm : m.id = msgId) :
    updateConvMsg msgId f (msgs ++ [m]) = msgs ++ [f m] := by
  unfold updateConvMsg
  rw [List.map_append]
  congr 1
  · exact map_id_of_eq _ msgs
      (fun x hx => if_neg (by simpa using hfresh x hx))
  · simp [hm]

theorem finalMsg_id (fmt : TargetFormat) (pub : String)
    (iLove : ConvFile → Except Unit ConvResult)
    (gemini : ConvFile → Except Unit String) (file : ConvFile)
    (aiMsgId : Nat) :
    (finalMsg fmt pub iLove gemini file aiMsgId).id = aiMsgId := by
  unfold finalMsg
  split
  · split
    · rfl
    · split <;> rfl
  · split <;> rfl

theorem processFile_eq (fmt : TargetFormat) (pub : String)
    (iLove : ConvFile → Except Unit ConvResult)
    (gemini : ConvFile → Except Unit String) (file : ConvFile)
    (aiMsgId : Nat) (msgs : List ConvMsg)
    (hfresh : ∀ m ∈ msgs, m.id ≠ aiMsgId) :
    (processFile fmt pub iLove gemini file aiMsgId msgs).1
        = msgs ++ [finalMsg fmt pub iLove gemini file aiMsgId] ∧
    (processFile fmt pub iLove gemini file aiMsgId msgs).2
        = callsFor fmt pub iLove file := by
  have hupd : ∀ (f : ConvMsg → ConvMsg) (m : ConvMsg), m.id = aiMsgId →
      updateConvMsg aiMsgId f (msgs ++ [m]) = msgs ++ [f m] :=
    fun f m hm => updateConvMsg_append aiMsgId f msgs m hfresh hm
  by_cases hp : (pub != "" && (toolMap fmt).isSome) = true
  · cases hi : iLove file with
    | ok r =>
        constructor
        · simp only [processFile, finalMsg, hp, if_true, hi, hupd]
        · simp only [processFile, callsFor, hp, if_true, hi]
    | error e =>
        cases hg : gemini file with
        | ok text =>
            constructor
            · simp only [processFile, fallbackStep, finalMsg, hp, if_true,
                hi, hg, hupd]
            · simp only [processFile, fallbackStep, callsFor, hp, if_true,
                hi, hg]
        | error e2 =>
            constructor
            · simp only [processFile, fallbackStep, finalMsg, hp, if_true,
                hi, hg, hupd]
            · simp only [processFile, fallbackStep, callsFor, hp, if_true,
                hi, hg]
  · have hp2 : (pub != "" && (toolMap fmt).isSome) = false := by
      simpa using hp
    cases hg : gemini file with
    | ok text =>
        constructor
        · simp only [processFile, fallbackStep, finalMsg, hp2,
            Bool.false_eq_true, if_false, hg, hupd]
        · simp only [processFile, fallbackStep, callsFor, hp2,
            Bool.false_eq_true, if_false, hg]
    | error e2 =>
        constructor
        · simp only [processFile, fallbackStep, finalMsg, hp2,
            Bool.false_eq_true, if_false, hg, hupd]
        · simp only [processFile, fallbackStep, callsFor, hp2,
            Bool.false_eq_true, if_false, hg]

theorem finalMsgs_length (fmt : TargetFormat) (pub : String)
    (iLove : ConvFile → Except Unit ConvResult)
    (gemini : ConvFile → Except Unit String) (files : List ConvFile)
    (ctr : Nat) :
    (finalMsgs fmt pub iLove gemini files ctr).length = files.length := by
  induction files generalizing ctr with
  | nil => rfl
  | cons file rest ih =>
      rw [finalMsgs, List.length_cons, List.length_cons, ih (ctr + 1)]

theorem convertFiles_eq (fmt : TargetFormat) (pub : String)
    (iLove : ConvFile → Except Unit ConvResult)
    (gemini : ConvFile → Except Unit String) (files : List ConvFile)
    (ctr : Nat) (msgs : List ConvMsg)
    (hfresh : ∀ m ∈ msgs, m.id < ctr) :
    (convertFiles fmt pub iLove gemini files ctr msgs).1
        = msgs ++ finalMsgs fmt pub iLove gemini files ctr ∧
    (convertFiles fmt pub iLove gemini files ctr msgs).2
        = traceFor fmt pub iLove files := by
  induction files generalizing ctr msgs with
  | nil => exact ⟨by simp [convertFiles, finalMsgs], rfl⟩
  | cons file rest ih =>
      have hf1 : ∀ m ∈ msgs, m.id ≠ ctr :=
        fun m hm => Nat.ne_of_lt (hfresh m hm)
      have hpf := processFile_eq fmt pub iLove gemini file ctr msgs hf1
      have hfresh2 : ∀ m ∈ (processFile fmt pub iLove gemini file ctr msgs).1,
          m.id < ctr + 1 := by
        rw [hpf.1]
        intro m hm
        rcases List.mem_append.mp hm with h | h
        · exact Nat.lt_succ_of_lt (hfresh m h)
        · simp only [List.mem_singleton] at h
          subst h
          rw [finalMsg_id]
          exact Nat.lt_succ_self ctr
      have hrest := ih (ctr + 1) (processFile fmt pub iLove gemini file ctr msgs).1
        hfresh2
      constructor
      · show (convertFiles fmt pub iLove gemini rest (ctr + 1)
            (processFile fmt pub iLove gemini file ctr msgs).1).1 = _
        rw [hrest.1, hpf.1, finalMsgs, List.append_assoc]
        rfl
      · show (processFile fmt pub iLove gemini file ctr msgs).2 ++
            (convertFiles fmt pub iLove gemini rest (ctr + 1)
              (processFile fmt pub iLove gemini file ctr msgs).1).2 = _
        rw [hrest.2, hpf.2, traceFor]

/-- C1 counterexample: with a configured conversion key, one PPT
conversion whose iLovePDF attempt fails and whose generic fallback
succeeds (the trace shows both calls, in order) settles the result
message WITHOUT any downloadData payload — the claim's "downloadable
result for every target format" fails at PPT. -/
theorem C1_counterexample :
    (convertFiles TargetFormat.ppt "key" (fun _ => Except.error ())
        (fun _ => Except.ok "outline")
        [⟨"slides.pdf", "data", "application/pdf"⟩] 0 []).2
      = [ConvCall.ilovepdf ⟨"slides.pdf", "data", "application/pdf"⟩,
         ConvCall.fallback ⟨"slides.pdf", "data", "application/pdf"⟩] ∧
    (convertFiles TargetFormat.ppt "key" (fun _ => Except.error ())
        (fun _ => Except.ok "outline")
        [⟨"slides.pdf", "data", "application/pdf"⟩] 0 []).1
      = [{ id := 0, content := "Converted slides.pdf.", isStreaming := false,
           downloadData := none }] := by
  decide

/-- C1 (amended): in the file-conversion flow with at least one selected
file and a configured public key, each file is handled independently and
in order: the iLovePDF service is attempted first and the generic
fallback runs exactly once if and only if that attempt fails; one file's
failure never aborts the loop (exactly one settled result message per
file is appended, whatever the oracles answer); and a successful fallback
settles the message with a downloadData payload for the PDF, EXCEL and
WORD target formats — but yields none for PPT. -/
theorem C1_conversion_loop (fmt : TargetFormat) (pub : String)
    (iLove : ConvFile → Except Unit ConvResult)
    (gemini : ConvFile → Except Unit String) (files : List ConvFile)
    (ctr : Nat) (msgs : List ConvMsg)
    (hpub : pub ≠ "") (_hfiles : files ≠ [])
    (hfresh : ∀ m ∈ msgs, m.id < ctr) :
    (∀ file, callsFor fmt pub iLove file =
      match iLove file with
      | .ok _ => [ConvCall.ilovepdf file]
      | .error _ => [ConvCall.ilovepdf file, ConvCall.fallback file]) ∧
    (convertFiles fmt pub iLove gemini files ctr msgs).2
        = traceFor fmt pub iLove files ∧
    (convertFiles fmt pub iLove gemini files ctr msgs).1
        = msgs ++ finalMsgs fmt pub iLove gemini files ctr ∧
    (convertFiles fmt pub iLove gemini files ctr msgs).1.length
        = msgs.length + files.length ∧
    (∀ file text i, iLove file = .error () → gemini file = .ok text →
      (finalMsg fmt pub iLove gemini file i).isStreaming = false ∧
      (finalMsg fmt pub iLove gemini file i).downloadData
          = fallbackDownload fmt file text) ∧
    (∀ file text,
      (fallbackDownload fmt file text).isSome = (fmt != TargetFormat.ppt)) := by
  have hp : (pub != "" && (toolMap fmt).isSome) = true := by
    rw [Bool.and_eq_true]
    constructor
    · simpa using hpub
    · cases fmt <;> rfl
  have hcf := convertFiles_eq fmt pub iLove gemini files ctr msgs hfresh
  refine ⟨?_, hcf.2, hcf.1, ?_, ?_, ?_⟩
  · intro file
    rw [callsFor, if_pos hp]
  · rw [hcf.1, List.length_append, finalMsgs_length]
  · intro file text i hi hg
    constructor
    · simp only [finalMsg, hp, if_true, hi, hg]
    · simp only [finalMsg, hp, if_true, hi, hg]
  · intro file text
    cases fmt <;> rfl

/-- C1 witness: two files with a failing conversion service and a
succeeding fallback under the EXCEL target. -/
theorem C1_witness :
    (∀ file, callsFor TargetFormat.excel "key" (fun _ => Except.error ())
        file =
      match (fun _ : ConvFile => (Except.error () : Except Unit ConvResult))
          file with
      | .ok _ => [ConvCall.ilovepdf file]
      | .error _ => [ConvCall.ilovepdf file, ConvCall.fallback file]) ∧
    (convertFiles TargetFormat.excel "key" (fun _ => Except.error ())
        (fun _ => Except.ok "a,b") [⟨"doc.pdf", "d1", "application/pdf"⟩,
          ⟨"tab.pdf", "d2", "application/pdf"⟩] 0 []).2
        = traceFor TargetFormat.excel "key" (fun _ => Except.error ())
            [⟨"doc.pdf", "d1", "application/pdf"⟩,
             ⟨"tab.pdf", "d2", "application/pdf"⟩] ∧
    (convertFiles TargetFormat.excel "key" (fun _ => Except.error ())
        (fun _ => Except.ok "a,b") [⟨"doc.pdf", "d1", "application/pdf"⟩,
          ⟨"tab.pdf", "d2", "application/pdf"⟩] 0 []).1
        = [] ++ finalMsgs TargetFormat.excel "key" (fun _ => Except.error ())
            (fun _ => Except.ok "a,b")
            [⟨"doc.pdf", "d1", "application/pdf"⟩,
             ⟨"tab.pdf", "d2", "application/pdf"⟩] 0 ∧
    (convertFiles TargetFormat.excel "key" (fun _ => Except.error ())
        (fun _ => Except.ok "a,b") [⟨"doc.pdf", "d1", "application/pdf"⟩,
          ⟨"tab.pdf", "d2", "application/pdf"⟩] 0 []).1.length
        = ([] : List ConvMsg).length +
            [⟨"doc.pdf", "d1", "application/pdf"⟩,
             (⟨"tab.pdf", "d2", "application/pdf"⟩ : ConvFile)].length ∧
    (∀ file text i,
      (fun _ : ConvFile => (Except.error () : Except Unit ConvResult)) file
          = .error () →
      (fun _ : ConvFile => (Except.ok "a,b" : Except Unit String)) file
          = .ok text →
      (finalMsg TargetFormat.excel "key" (fun _ => Except.error ())
          (fun _ => Except.ok "a,b") file i).isStreaming = false ∧
      (finalMsg TargetFormat.excel "key" (fun _ => Except.error ())
          (fun _ => Except.ok "a,b") file i).downloadData
          = fallbackDownload TargetFormat.excel file text) ∧
    (∀ file text,
      (fallbackDownload TargetFormat.excel file text).isSome
          = (TargetFormat.excel != TargetFormat.ppt)) :=
  C1_conversion_loop TargetFormat.excel "key" (fun _ => Except.error ())
    (fun _ => Except.ok "a,b")
    [⟨"doc.pdf", "d1", "application/pdf"⟩,
     ⟨"tab.pdf", "d2", "application/pdf"⟩] 0 []
    (by decide) (by decide) (by intro m hm; cases hm)

end Converter
